import Mathlib

/-!
Verification of the filesoldier client-side cryptographic protocol.

This file shallowly embeds the crypto utilities of the repository
(`src/utils/passwordGenerator.ts` crypto half, the password key-wrapping
module, the Convex `files.ts` download mutations and the download-page
orchestration) and proves the specification's claims about them.

Byte strings are modelled as `List Nat` with every element below 256
(`isBytes`).  `btoa` / `atob` are the browser Base64 primitives, modelled
faithfully (strict decoding returning `Option`, standing for the thrown
`InvalidCharacterError`).  The WebCrypto AES-GCM and PBKDF2 primitives are
not repository code; they are modelled as idealized deterministic
executable functions that satisfy the WebCrypto functional contract the
code relies on: encryption is a deterministic function of key, IV and
plaintext producing ciphertext with a trailing authentication tag;
decryption inverts it and fails (returns `none`, standing for the rejected
promise) exactly when the tag check fails.
-/

/-- A byte string: every element is an 8-bit value. -/
def isBytes (l : List Nat) : Prop := ∀ b ∈ l, b < 256

/-- The standard Base64 alphabet as ASCII codes
(A-Z, a-z, 0-9, plus, slash). -/
def b64Alphabet : List Nat :=
  [65, 66, 67, 68, 69, 70, 71, 72, 73, 74, 75, 76, 77, 78, 79, 80,
   81, 82, 83, 84, 85, 86, 87, 88, 89, 90, 97, 98, 99, 100, 101, 102,
   103, 104, 105, 106, 107, 108, 109, 110, 111, 112, 113, 114, 115, 116,
   117, 118, 119, 120, 121, 122, 48, 49, 50, 51, 52, 53, 54, 55, 56, 57,
   43, 47]

/-- The ASCII code of the Base64 digit for a 6-bit value. -/
def b64Char (n : Nat) : Nat := b64Alphabet.getD (n % 64) 65

/-- Index of an ASCII code in a list, used to invert `b64Char`. -/
def listIdx (c : Nat) : List Nat → Option Nat
  | [] => none
  | a :: rest => if a = c then some 0 else (listIdx c rest).map (· + 1)

/-- The 6-bit value of a Base64 digit, `none` for a character outside the
alphabet (browser `atob` throws on such input). -/
def b64Digit (c : Nat) : Option Nat := listIdx c b64Alphabet

/-- Browser `btoa`: encode a byte string to Base64 ASCII codes, processing
three input bytes into four output characters, padding the final group
with `=` (ASCII 61). -/
def btoa : List Nat → List Nat
  | [] => []
  | [b0] => [b64Char (b0 / 4), b64Char (b0 % 4 * 16), 61, 61]
  | [b0, b1] => [b64Char (b0 / 4), b64Char (b0 % 4 * 16 + b1 / 16),
                 b64Char (b1 % 16 * 4), 61]
  | b0 :: b1 :: b2 :: rest =>
      b64Char (b0 / 4) :: b64Char (b0 % 4 * 16 + b1 / 16) ::
      b64Char (b1 % 16 * 4 + b2 / 64) :: b64Char (b2 % 64) :: btoa rest

/-- Browser `atob`: strict Base64 decoding of a padded Base64 string;
`none` models the thrown `InvalidCharacterError`.  Padding characters
(`=`, ASCII 61) are accepted only at the end of the final four-character
group. -/
def atob : List Nat → Option (List Nat)
  | [] => some []
  | c0 :: c1 :: c2 :: c3 :: rest =>
      if c2 = 61 then
        if c3 = 61 then
          if rest = [] then
            (b64Digit c0).bind fun d0 =>
            (b64Digit c1).map fun d1 => [d0 * 4 + d1 / 16]
          else none
        else none
      else if c3 = 61 then
        if rest = [] then
          (b64Digit c0).bind fun d0 =>
          (b64Digit c1).bind fun d1 =>
          (b64Digit c2).map fun d2 =>
            [d0 * 4 + d1 / 16, d1 % 16 * 16 + d2 / 4]
        else none
      else
        (b64Digit c0).bind fun d0 =>
        (b64Digit c1).bind fun d1 =>
        (b64Digit c2).bind fun d2 =>
        (b64Digit c3).bind fun d3 =>
        (atob rest).map fun bs =>
          (d0 * 4 + d1 / 16) :: (d1 % 16 * 16 + d2 / 4) ::
          (d2 % 4 * 64 + d3) :: bs
  | _ => none

/-- The URL-safe remap applied on upload:
plus (43) becomes dash (45), slash (47) becomes underscore (95). -/
def swapUrl (c : Nat) : Nat := if c = 43 then 45 else if c = 47 then 95 else c

/-- The inverse remap applied on download:
dash (45) back to plus (43), underscore (95) back to slash (47). -/
def swapStd (c : Nat) : Nat := if c = 45 then 43 else if c = 95 then 47 else c

/-- Strip all trailing padding characters, the effect of the
trailing-equals regex replacement. -/
def dropTrailingEq (s : List Nat) : List Nat :=
  (s.reverse.dropWhile (fun c => c == 61)).reverse

/-- Re-append padding characters until the length is a multiple of four,
the effect of the padding while-loop in the decryption functions. -/
def padB64 (s : List Nat) : List Nat :=
  s ++ List.replicate ((4 - s.length % 4) % 4) 61

/-- The composite URL-safe encoding of a Base64 string. -/
def toUrlSafe (s : List Nat) : List Nat := dropTrailingEq (s.map swapUrl)

/-- The composite inverse of `toUrlSafe`. -/
def fromUrlSafe (s : List Nat) : List Nat := padB64 (s.map swapStd)

/-- Mixing function used by the idealized WebCrypto primitives below to
depend on whole byte strings. -/
def byteMix (l : List Nat) : Nat :=
  l.foldl (fun a b => (a * 257 + b + 1) % 65536) 7

/-- Keystream byte `i` of the idealized AES-GCM model for a key and IV. -/
def ksByte (key iv : List Nat) (i : Nat) : Nat :=
  (byteMix key * 31 + byteMix iv * 17 + i * 13 + 5) % 256

/-- XOR a byte string against the keystream starting at position `i`.
Applying it twice restores the input. -/
def xorStream (key iv : List Nat) : Nat → List Nat → List Nat
  | _, [] => []
  | i, b :: rest => (b ^^^ ksByte key iv i) :: xorStream key iv (i + 1) rest

/-- Authentication tag of the idealized AES-GCM model: one byte per IV
byte (injective in the IV for a fixed key and ciphertext body) plus four
mix bytes; 16 bytes total for the 96-bit IVs the code uses. -/
def gcmTag (key iv body : List Nat) : List Nat :=
  iv.map (fun b => (b + byteMix key + byteMix body) % 256) ++
  [byteMix key % 256, byteMix iv % 256, byteMix body % 256,
   (byteMix key + byteMix iv + byteMix body) % 256]

/-- Idealized `crypto.subtle.encrypt` with AES-GCM: deterministic in key,
IV and plaintext; output is the encrypted body followed by the
authentication tag. -/
def gcmEncrypt (key iv pt : List Nat) : List Nat :=
  xorStream key iv 0 pt ++ gcmTag key iv (xorStream key iv 0 pt)

/-- Idealized `crypto.subtle.decrypt` with AES-GCM: splits the trailing
tag, verifies it, and returns `none` (the rejected promise) exactly when
the authentication check fails. -/
def gcmDecrypt (key iv ct : List Nat) : Option (List Nat) :=
  if iv.length + 4 ≤ ct.length then
    if ct.drop (ct.length - (iv.length + 4)) =
        gcmTag key iv (ct.take (ct.length - (iv.length + 4))) then
      some (xorStream key iv 0 (ct.take (ct.length - (iv.length + 4))))
    else none
  else none

/-- Idealized PBKDF2-SHA256 (`deriveKey`): a deterministic executable
function of password, salt and iteration count producing a 256-bit key.
The code treats the real primitive as exactly such an opaque deterministic
function. -/
def pbkdf2 (password salt : List Nat) (iterations : Nat) : List Nat :=
  (List.range 32).map
    (fun i => (byteMix password * 3 + byteMix salt * 5 + iterations * 7 +
      i * 11 + 13) % 256)

/-- ASCII bytes of the fixed JWK JSON text up to the value of the k
field, as produced by JSON.stringify of the exported A256GCM JWK. -/
def jwkHead : List Nat :=
  [123, 34, 97, 108, 103, 34, 58, 34, 65, 50, 53, 54, 71, 67, 77, 34,
   44, 34, 101, 120, 116, 34, 58, 116, 114, 117, 101, 44, 34, 107, 34,
   58, 34]

/-- ASCII bytes of the fixed JWK JSON text after the value of the k
field (key_ops and kty members and the closing brace). -/
def jwkTail : List Nat :=
  [34, 44, 34, 107, 101, 121, 95, 111, 112, 115, 34, 58, 91, 34, 101,
   110, 99, 114, 121, 112, 116, 34, 44, 34, 100, 101, 99, 114, 121, 112,
   116, 34, 93, 44, 34, 107, 116, 121, 34, 58, 34, 111, 99, 116, 34,
   125]

/-- Models `crypto.subtle.exportKey("jwk", key)` followed by
`JSON.stringify`: the browser produces the fixed A256GCM JWK object with
the raw 256-bit key Base64url-encoded (unpadded) in the k field. -/
def exportKeyJwkString (key : List Nat) : List Nat :=
  jwkHead ++ toUrlSafe (btoa key) ++ jwkTail

/-- Models `JSON.parse` followed by `crypto.subtle.importKey("jwk", ...)`
for the fixed A256GCM template: recognizes the serialized JWK, decodes
the k field back to the raw key bytes, and fails (`none`, the thrown
error) on anything malformed, including a key of the wrong length. -/
def importKeyJwkString (s : List Nat) : Option (List Nat) :=
  if s.take jwkHead.length = jwkHead then
    if s.drop (s.length - jwkTail.length) = jwkTail then
      (atob (fromUrlSafe ((s.drop jwkHead.length).take
          (s.length - jwkTail.length - jwkHead.length)))).bind
        fun raw => if raw.length = 32 then some raw else none
    else none
  else none

/-- The key transport string computed inline in `encryptFile`:
`btoa(JSON.stringify(exportedKey))` with plus mapped to dash, slash to
underscore, and trailing padding stripped. -/
def keyStringOf (key : List Nat) : List Nat :=
  toUrlSafe (btoa (exportKeyJwkString key))

/-- The key re-import computed inline in `decryptFile` / `decryptMetadata`:
reverse the URL-safe alphabet remap, restore padding while the length is
not a multiple of four, `atob`, `JSON.parse`, `importKey`. -/
def importKeyFromString (keyString : List Nat) : Option (List Nat) :=
  (atob (fromUrlSafe keyString)).bind importKeyJwkString

/-- ASCII bytes of the metadata JSON text before the name value. -/
def mHead : List Nat := [123, 34, 110, 97, 109, 101, 34, 58, 34]

/-- ASCII bytes of the metadata JSON text between name and type values. -/
def mMid : List Nat := [34, 44, 34, 116, 121, 112, 101, 34, 58, 34]

/-- ASCII bytes of the metadata JSON text after the type value. -/
def mTail : List Nat := [34, 125]

/-- A metadata object `\x7bname, type\x7d` as passed to `encryptMetadata`.
Field values are byte strings; the model covers values that need no JSON
string escaping (no quote or backslash bytes). -/
structure Meta where
  name : List Nat
  ty : List Nat
deriving DecidableEq

/-- Models `JSON.stringify` of a metadata object (TextEncoder output). -/
def jsonMeta (m : Meta) : List Nat :=
  mHead ++ m.name ++ mMid ++ m.ty ++ mTail

/-- Models `JSON.parse` of decrypted metadata bytes back to an object;
`none` models the thrown SyntaxError. -/
def parseMeta (s : List Nat) : Option Meta :=
  if s.take mHead.length = mHead then
    let r1 := s.drop mHead.length
    let name := r1.takeWhile (fun b => b != 34)
    let r2 := r1.drop name.length
    if r2.take mMid.length = mMid then
      let r3 := r2.drop mMid.length
      let ty := r3.takeWhile (fun b => b != 34)
      let r4 := r3.drop ty.length
      if r4 = mTail then some ⟨name, ty⟩ else none
    else none
  else none

/-- Result record of `encryptFile`. -/
structure EncryptFileResult where
  encryptedBlob : List Nat
  iv : List Nat
  ivBytes : List Nat
  keyString : List Nat
deriving DecidableEq

/-- `encryptFile(file, key)` of `src/utils/crypto`: draws a fresh random
96-bit IV (`ivDraw`, the injected `crypto.getRandomValues` output),
encrypts the file bytes with AES-GCM, exports the key as a JWK and
Base64url-encodes it, and returns the encrypted blob together with the
Base64 IV string, the raw IV bytes and the transport key string. -/
def encryptFile (file key ivDraw : List Nat) : EncryptFileResult :=
  { encryptedBlob := gcmEncrypt key ivDraw file
    iv := btoa ivDraw
    ivBytes := ivDraw
    keyString := keyStringOf key }

/-- `encryptMetadata(metadata, key)`: serializes the object, draws a fresh
random IV (`ivDraw`, independent of the file IV), encrypts, and returns
`Base64(IV || ciphertext)`. -/
def encryptMetadata (metadata : Meta) (key ivDraw : List Nat) : List Nat :=
  btoa (ivDraw ++ gcmEncrypt key ivDraw (jsonMeta metadata))

/-- IV length constant of the source (96 bits). -/
def IV_LENGTH : Nat := 12

/-- `decryptMetadata(encryptedMetadataB64, keyString)`: re-imports the key
from the URL-hash string, Base64-decodes the combined blob, splits the
12-byte IV from the remainder, decrypts and parses JSON. -/
def decryptMetadata (encryptedMetadataB64 keyString : List Nat) : Option Meta :=
  (importKeyFromString keyString).bind fun key =>
  (atob encryptedMetadataB64).bind fun combined =>
  (gcmDecrypt key (combined.take IV_LENGTH) (combined.drop IV_LENGTH)).bind
    parseMeta

/-- `decryptMetadataWithKey(encryptedMetadataB64, key)`: same split and
decrypt, with an already imported CryptoKey. -/
def decryptMetadataWithKey (encryptedMetadataB64 key : List Nat) : Option Meta :=
  (atob encryptedMetadataB64).bind fun combined =>
  (gcmDecrypt key (combined.take IV_LENGTH) (combined.drop IV_LENGTH)).bind
    parseMeta

/-- `decryptFile(encryptedBlob, keyString, ivString)`: re-imports the key
from the URL-safe string (restoring padding), Base64-decodes the IV
string, and decrypts the blob. -/
def decryptFile (encryptedBlob keyString ivString : List Nat) : Option (List Nat) :=
  (importKeyFromString keyString).bind fun key =>
  (atob ivString).bind fun iv =>
  gcmDecrypt key iv encryptedBlob

/-- Current PBKDF2 iteration count (OWASP 2023). -/
def CURRENT_ITERATIONS : Nat := 310000

/-- Legacy PBKDF2 iteration count for backward compatibility. -/
def LEGACY_ITERATIONS : Nat := 100000

/-- `derivePasswordKey_Simple(password, salt, iterations)`: PBKDF2-SHA256
key derivation at a configurable iteration count (idealized primitive). -/
def derivePasswordKey_Simple (password salt : List Nat) (iterations : Nat) :
    List Nat :=
  pbkdf2 password salt iterations

/-- The record returned by `wrapKeyWithPassword`. -/
structure WrappedKey where
  encryptedKey : List Nat
  salt : List Nat
  iv : List Nat
  iterations : Nat
  version : Nat
deriving DecidableEq

/-- `wrapKeyWithPassword(fileKey, password)`: draws a random 16-byte salt
and 12-byte IV (injected as `saltDraw` and `ivDraw`), derives the
password key at the current iteration count, exports the file key raw,
encrypts it, and returns the self-describing wrapping record. -/
def wrapKeyWithPassword (fileKey password saltDraw ivDraw : List Nat) :
    WrappedKey :=
  { encryptedKey := btoa (gcmEncrypt
      (derivePasswordKey_Simple password saltDraw CURRENT_ITERATIONS)
      ivDraw fileKey)
    salt := btoa saltDraw
    iv := btoa ivDraw
    iterations := CURRENT_ITERATIONS
    version := 2 }

/-- Outcome of `unwrapKeyWithPassword`.  `decodeError` models the
uncaught exception thrown by `atob` on malformed Base64 input (outside
the try block); `incorrectPassword` models the caught decryption failure
rethrown as the single undifferentiated Incorrect Password error. -/
inductive UnwrapResult where
  | ok (key : List Nat)
  | incorrectPassword
  | decodeError
deriving DecidableEq

/-- Models `crypto.subtle.importKey("raw", ...)` for AES-GCM 256: accepts
exactly 32 bytes. -/
def importKeyRaw (bs : List Nat) : Option (List Nat) :=
  if bs.length = 32 then some bs else none

/-- The JavaScript expression `iterations || LEGACY_ITERATIONS`: the
legacy count when the stored field is absent, null or zero, the stored
count otherwise. -/
def iterationsOrLegacy (iterations : Option Nat) : Nat :=
  match iterations with
  | none => LEGACY_ITERATIONS
  | some 0 => LEGACY_ITERATIONS
  | some n => n

/-- `unwrapKeyWithPassword(encryptedKeyStr, password, saltStr, ivStr,
iterations)`: decodes the stored Base64 fields, derives the password key
at the stored iteration count (falling back to the legacy count when the
field is absent, null or zero), then decrypts and re-imports the file key
inside a try block whose catch throws the Incorrect Password error. -/
def unwrapKeyWithPassword (encryptedKeyStr password saltStr ivStr : List Nat)
    (iterations : Option Nat) : UnwrapResult :=
  match atob saltStr, atob ivStr, atob encryptedKeyStr with
  | some salt, some iv, some encryptedKey =>
      let iterationCount := iterationsOrLegacy iterations
      let passwordKey := derivePasswordKey_Simple password salt iterationCount
      match gcmDecrypt passwordKey iv encryptedKey with
      | some fileKeyRaw =>
          match importKeyRaw fileKeyRaw with
          | some k => .ok k
          | none => .incorrectPassword
      | none => .incorrectPassword
  | _, _, _ => .decodeError

/-- A row of the `files` table (the fields the download mutations read
and write). -/
structure FileRec where
  id : Nat
  storageId : Nat
  expiresAt : Option Nat
  maxDownloads : Option Nat
  downloads : Nat
  passwordProtection : Bool
  lastDownloadAt : Option Nat
deriving DecidableEq

/-- A row of the `downloadTokens` table. -/
structure TokenRec where
  id : Nat
  fileId : Nat
  token : Nat
  createdAt : Nat
  used : Bool
  expiresAt : Nat
deriving DecidableEq

/-- A row of the `downloadAttempts` table. -/
structure AttemptRec where
  fileId : Nat
  attemptTime : Nat
  sessionId : Nat
deriving DecidableEq

/-- A row of the `fileHistory` table (the fields `confirmDownload`
touches). -/
structure HistoryRec where
  fileId : Nat
  downloads : Nat
deriving DecidableEq

/-- The Convex database state the download mutations operate on. -/
structure DB where
  files : List FileRec
  tokens : List TokenRec
  attempts : List AttemptRec
  history : List HistoryRec
deriving DecidableEq

/-- Rate limit window of `getDownloadToken` (15 minutes in ms). -/
def RATE_LIMIT_WINDOW : Nat := 15 * 60 * 1000

/-- Maximum password attempts per window. -/
def MAX_ATTEMPTS : Nat := 5

/-- Validity window of a download token (5 minutes in ms). -/
def TOKEN_TTL : Nat := 5 * 60 * 1000

/-- Result of the `getDownloadToken` mutation.  `nullResult` is the
`null` return used alike for a missing, expired or exhausted file. -/
inductive TokenIssueResult where
  | nullResult
  | rateLimited (retryAfterMinutes : Nat)
  | issued (url : Nat) (token : Nat) (expiresIn : Nat)
deriving DecidableEq

/-- Result of the `confirmDownload` mutation. -/
inductive ConfirmResult where
  | invalidToken
  | tokenExpired
  | tokenUsed
  | fileNotFound
  | limitReached
  | success
deriving DecidableEq

/-- Expiry check used by both mutations: `expiresAt && expiresAt < now`. -/
def fileExpired (f : FileRec) (now : Nat) : Bool :=
  match f.expiresAt with
  | some e => e < now
  | none => false

/-- Download-limit check used by both mutations:
`maxDownloads !== undefined && (downloads or 0) >= maxDownloads`. -/
def fileLimitReached (f : FileRec) : Bool :=
  match f.maxDownloads with
  | some m => m ≤ f.downloads
  | none => false

/-- Expiry and limit checks plus token insertion of `getDownloadToken`,
after the rate-limiting section. -/
def issueToken (db : DB) (file : FileRec) (now newToken newId : Nat) :
    TokenIssueResult × DB :=
  if fileExpired file now then (.nullResult, db)
  else if fileLimitReached file then (.nullResult, db)
  else
    (.issued file.storageId newToken TOKEN_TTL,
     { db with tokens := db.tokens ++
        [{ id := newId, fileId := file.id, token := newToken,
           createdAt := now, used := false, expiresAt := now + TOKEN_TTL }] })

/-- PHASE 1 `getDownloadToken(fileId, sessionId)`: validates access and
issues a single-use token without touching the download counter.  `now`
is `Date.now()`; `newToken` and `newId` are the generated token UUID and
inserted row id. -/
def getDownloadToken (db : DB) (fileId : Nat) (sessionId : Option Nat)
    (now newToken newId : Nat) : TokenIssueResult × DB :=
  match db.files.find? (fun f => f.id == fileId) with
  | none => (.nullResult, db)
  | some file =>
      match file.passwordProtection, sessionId with
      | true, some sid =>
          let recent := db.attempts.filter (fun a =>
            a.fileId == fileId && a.sessionId == sid &&
            decide (now - RATE_LIMIT_WINDOW < a.attemptTime))
          if MAX_ATTEMPTS ≤ recent.length then
            let oldest := ((recent.map (fun a => a.attemptTime)).min?).getD 0
            (.rateLimited ((oldest + RATE_LIMIT_WINDOW - now + 59999) / 60000),
             db)
          else
            issueToken
              { db with attempts := db.attempts ++
                  [{ fileId := fileId, attemptTime := now, sessionId := sid }] }
              file now newToken newId
      | _, _ => issueToken db file now newToken newId

/-- PHASE 2 `confirmDownload(token)`: validates the token, re-checks the
download limit, marks the token used and commits the counter increment
(also mirrored into the history row). -/
def confirmDownload (db : DB) (token : Nat) (now : Nat) :
    ConfirmResult × DB :=
  match db.tokens.find? (fun t => t.token == token) with
  | none => (.invalidToken, db)
  | some tr =>
      if tr.expiresAt < now then
        (.tokenExpired,
         { db with tokens := db.tokens.filter (fun t => t.id != tr.id) })
      else if tr.used then (.tokenUsed, db)
      else
        match db.files.find? (fun f => f.id == tr.fileId) with
        | none =>
            (.fileNotFound,
             { db with tokens := db.tokens.filter (fun t => t.id != tr.id) })
        | some file =>
            if fileLimitReached file then
              (.limitReached,
               { db with tokens := db.tokens.filter (fun t => t.id != tr.id) })
            else
              let newDownloads := file.downloads + 1
              let db1 := { db with tokens := db.tokens.map (fun t : TokenRec =>
                if t.id == tr.id then { t with used := true } else t) }
              let db2 := { db1 with files := db1.files.map (fun f : FileRec =>
                if f.id == tr.fileId then
                  { f with downloads := newDownloads,
                           lastDownloadAt := some now }
                else f) }
              let newHistory := db2.history.map (fun x : HistoryRec =>
                if x.fileId == tr.fileId then
                  { x with downloads := newDownloads }
                else x)
              let db3 := { db2 with history :=
                if (db2.history.find?
                    (fun h : HistoryRec => h.fileId == tr.fileId)).isSome then
                  newHistory
                else db2.history }
              (.success, db3)

/-- The downloads counter of a file as read back from the database. -/
def fileDownloads (db : DB) (fileId : Nat) : Option Nat :=
  (db.files.find? (fun f => f.id == fileId)).map (fun f => f.downloads)

/-- Arguments of one `getDownloadToken` request, for iterating calls. -/
structure TokenReq where
  fileId : Nat
  sessionId : Option Nat
  now : Nat
  newToken : Nat
  newId : Nat

/-- Database evolution under a sequence of `getDownloadToken` requests
with no confirmation in between. -/
def runTokenReqs (db : DB) (reqs : List TokenReq) : DB :=
  reqs.foldl (fun d r =>
    (getDownloadToken d r.fileId r.sessionId r.now r.newToken r.newId).2) db

/-- The password-protection record as the download page receives it. -/
structure PasswordRec where
  encryptedKey : List Nat
  salt : List Nat
  iv : List Nat
  iterations : Option Nat
deriving DecidableEq

/-- The file metadata the download page fetched from the server. -/
structure ClientFileMeta where
  encryptedMetadata : List Nat
  iv : List Nat
  publicName : List Nat
  passwordProtection : Option PasswordRec
deriving DecidableEq

/-- The token-endpoint response as seen by `executeDownload`:
rate-limited, no url or token (limit reached or expired), or granted. -/
inductive TokenApiResp where
  | rateLimitedMsg
  | denied
  | granted (token : Nat)
deriving DecidableEq

/-- Injected collaborator responses and ambient inputs of one
`executeDownload` run: the URL fragment, the typed password, the
human-verification widget state, the token endpoint response, the
ciphertext fetch result and whether the confirmation endpoint call
succeeds. -/
structure DlEnv where
  urlHash : List Nat
  password : List Nat
  turnstilePresent : Bool
  turnstileVerified : Bool
  tokenResp : TokenApiResp
  fetchOk : Bool
  blob : List Nat
  confirmOk : Bool
deriving DecidableEq

/-- Error kinds of `executeDownload`, one per distinct thrown message or
error path of the source. -/
inductive DlError where
  | passwordRequired
  | verificationRequired
  | verificationFailed
  | unwrapDecodeError
  | incorrectPassword
  | missingKey
  | rateLimited
  | limitOrExpired
  | fetchFailed
  | decryptFailed
deriving DecidableEq

/-- Terminal status of one `executeDownload` run. -/
inductive DlStatus where
  | done
  | error (e : DlError)
deriving DecidableEq

/-- Observable outcome of one `executeDownload` run: terminal status, the
locally saved plaintext (if any), the filename state, the name the file
was saved under and whether the confirmation endpoint recorded the
download. -/
structure DlOutcome where
  status : DlStatus
  savedFile : Option (List Nat)
  realFilename : Option (List Nat)
  savedAs : List Nat
  confirmed : Bool
deriving DecidableEq

/-- Error result helper: the outer catch sets status error; nothing was
saved and nothing confirmed. -/
def dlErr (e : DlError) (realName : Option (List Nat)) : DlOutcome :=
  { status := .error e, savedFile := none, realFilename := realName,
    savedAs := [], confirmed := false }

/-- Token request, ciphertext fetch, decrypt, save and confirm section of
`executeDownload`, after key acquisition.  `fileKey` is `some` on the
password path and `none` on the URL-fragment path. -/
def dlAfterKey (fileData : ClientFileMeta) (env : DlEnv)
    (fileKey : Option (List Nat)) (realName : Option (List Nat)) : DlOutcome :=
  match env.tokenResp with
  | .rateLimitedMsg => dlErr .rateLimited realName
  | .denied => dlErr .limitOrExpired realName
  | .granted _ =>
      if env.fetchOk then
        match (match fileKey with
          | some k => (atob fileData.iv).bind fun iv => gcmDecrypt k iv env.blob
          | none => decryptFile env.blob env.urlHash fileData.iv) with
        | some pt =>
            { status := .done, savedFile := some pt, realFilename := realName,
              savedAs := realName.getD fileData.publicName,
              confirmed := env.confirmOk }
        | none => dlErr .decryptFailed realName
      else dlErr .fetchFailed realName

/-- `executeDownload` of the download page: password path (verification,
key unwrap, metadata decryption whose failure is caught and ignored) or
URL-fragment path, then token request, fetch, decrypt, local save and
fire-and-forget confirmation. -/
def executeDownload (fileData : ClientFileMeta) (env : DlEnv) : DlOutcome :=
  match fileData.passwordProtection with
  | some pp =>
      if env.password = [] then dlErr .passwordRequired none
      else if ¬ env.turnstilePresent then dlErr .verificationRequired none
      else if ¬ env.turnstileVerified then dlErr .verificationFailed none
      else
        match unwrapKeyWithPassword pp.encryptedKey env.password pp.salt pp.iv
            pp.iterations with
        | .decodeError => dlErr .unwrapDecodeError none
        | .incorrectPassword => dlErr .incorrectPassword none
        | .ok fileKey =>
            let decryptedMeta :=
              decryptMetadataWithKey fileData.encryptedMetadata fileKey
            dlAfterKey fileData env (some fileKey)
              (decryptedMeta.map (fun m => m.name))
  | none =>
      if env.urlHash = [] then dlErr .missingKey none
      else dlAfterKey fileData env none none

instance isBytes_decidable (l : List Nat) : Decidable (isBytes l) :=
  inferInstanceAs (Decidable (∀ b ∈ l, b < 256))

theorem b64Digit_b64Char : ∀ x < 64, b64Digit (b64Char x) = some x := by decide

theorem b64Char_mem (x : Nat) : b64Char x ∈ b64Alphabet := by
  have h : x % 64 < b64Alphabet.length := by
    have := Nat.mod_lt x (y := 64) (by decide)
    simpa [b64Alphabet] using this
  simp only [b64Char, List.getD_eq_getElem _ _ h]
  exact List.getElem_mem h

theorem b64Char_ne_61 (x : Nat) : b64Char x ≠ 61 := by
  have hm := b64Char_mem x
  have : ∀ c ∈ b64Alphabet, c ≠ 61 := by decide
  exact this _ hm

theorem div16_mul_add (x y : Nat) (hy : y < 16) : (x * 16 + y) / 16 = x := by
  rw [Nat.mul_comm, Nat.mul_add_div (by omega), Nat.div_eq_of_lt hy,
    Nat.add_zero]

theorem div4_mul_add (x y : Nat) (hy : y < 4) : (x * 4 + y) / 4 = x := by
  rw [Nat.mul_comm, Nat.mul_add_div (by omega), Nat.div_eq_of_lt hy,
    Nat.add_zero]

/-- Strict Base64 decoding inverts encoding on byte strings. -/
theorem atob_btoa (bs : List Nat) (h : isBytes bs) : atob (btoa bs) = some bs := by
  induction bs using btoa.induct with
  | case1 => decide
  | case2 b0 =>
      have hb0 : b0 < 256 := h b0 (by simp)
      have h0 : b0 / 4 < 64 := by omega
      have h1 : b0 % 4 * 16 < 64 := by omega
      simp [btoa, atob, b64Digit_b64Char _ h0, b64Digit_b64Char _ h1]
      omega
  | case3 b0 b1 =>
      have hb0 : b0 < 256 := h b0 (by simp)
      have hb1 : b1 < 256 := h b1 (by simp)
      have h0 : b0 / 4 < 64 := by omega
      have h1 : b0 % 4 * 16 + b1 / 16 < 64 := by omega
      have h2 : b1 % 16 * 4 < 64 := by omega
      have hne : b64Char (b1 % 16 * 4) ≠ 61 := b64Char_ne_61 _
      simp [btoa, atob, hne, b64Digit_b64Char _ h0, b64Digit_b64Char _ h1,
        b64Digit_b64Char _ h2]
      omega
  | case4 b0 b1 b2 rest ih =>
      have hb0 : b0 < 256 := h b0 (by simp)
      have hb1 : b1 < 256 := h b1 (by simp)
      have hb2 : b2 < 256 := h b2 (by simp)
      have hrest : isBytes rest := fun b hb => h b (by simp [hb])
      have h0 : b0 / 4 < 64 := by omega
      have h1 : b0 % 4 * 16 + b1 / 16 < 64 := by omega
      have h2 : b1 % 16 * 4 + b2 / 64 < 64 := by omega
      have h3 : b2 % 64 < 64 := by omega
      have hne2 : b64Char (b1 % 16 * 4 + b2 / 64) ≠ 61 := b64Char_ne_61 _
      have hne3 : b64Char (b2 % 64) ≠ 61 := b64Char_ne_61 _
      simp [btoa, atob, hne2, hne3, b64Digit_b64Char _ h0,
        b64Digit_b64Char _ h1, b64Digit_b64Char _ h2, b64Digit_b64Char _ h3,
        ih hrest]
      omega

/-- Shape of `btoa` output: alphabet characters followed by at most two
padding characters, total length a multiple of four. -/
theorem btoa_shape (bs : List Nat) :
    ∃ core k, btoa bs = core ++ List.replicate k 61 ∧
      (∀ c ∈ core, c ∈ b64Alphabet) ∧ (core.length + k) % 4 = 0 ∧ k ≤ 2 := by
  induction bs using btoa.induct with
  | case1 => exact ⟨[], 0, by simp [btoa], by simp, by simp, by omega⟩
  | case2 b0 =>
      refine ⟨[b64Char (b0 / 4), b64Char (b0 % 4 * 16)], 2, ?_, ?_, by simp, by omega⟩
      · simp [btoa, List.replicate]
      · intro c hc
        simp only [List.mem_cons, List.not_mem_nil, or_false] at hc
        rcases hc with rfl | rfl
        · exact b64Char_mem _
        · exact b64Char_mem _
  | case3 b0 b1 =>
      refine ⟨[b64Char (b0 / 4), b64Char (b0 % 4 * 16 + b1 / 16),
        b64Char (b1 % 16 * 4)], 1, ?_, ?_, by simp, by omega⟩
      · simp [btoa, List.replicate]
      · intro c hc
        simp only [List.mem_cons, List.not_mem_nil, or_false] at hc
        rcases hc with rfl | rfl | rfl
        · exact b64Char_mem _
        · exact b64Char_mem _
        · exact b64Char_mem _
  | case4 b0 b1 b2 rest ih =>
      obtain ⟨core, k, heq, hmem, hlen, hk⟩ := ih
      refine ⟨b64Char (b0 / 4) :: b64Char (b0 % 4 * 16 + b1 / 16) ::
        b64Char (b1 % 16 * 4 + b2 / 64) :: b64Char (b2 % 64) :: core, k, ?_, ?_, ?_, hk⟩
      · simp [btoa, heq]
      · intro c hc
        simp only [List.mem_cons] at hc
        rcases hc with rfl | rfl | rfl | rfl | h
        · exact b64Char_mem _
        · exact b64Char_mem _
        · exact b64Char_mem _
        · exact b64Char_mem _
        · exact hmem c h
      · simp only [List.length_cons]
        omega

theorem dropWhile_of_forall_ne (l : List Nat) (h : ∀ c ∈ l, c ≠ 61) :
    l.dropWhile (fun c => c == 61) = l := by
  cases l with
  | nil => rfl
  | cons a t =>
      have : (a == 61) = false := by
        simp only [beq_eq_false_iff_ne]
        exact h a (by simp)
      simp [List.dropWhile_cons, this]

theorem dropTrailingEq_append_replicate (xs : List Nat) (k : Nat)
    (h : ∀ c ∈ xs, c ≠ 61) :
    dropTrailingEq (xs ++ List.replicate k 61) = xs := by
  unfold dropTrailingEq
  rw [List.reverse_append, List.reverse_replicate]
  have hrep : ∀ n, (List.replicate n 61 ++ xs.reverse).dropWhile
      (fun c => c == 61) = xs.reverse.dropWhile (fun c => c == 61) := by
    intro n
    induction n with
    | zero => simp
    | succ m ihm => simpa [List.replicate_succ, List.dropWhile_cons] using ihm
  rw [hrep, dropWhile_of_forall_ne _ (fun c hc => h c (by simpa using hc)),
    List.reverse_reverse]

theorem map_id_of_forall (l : List Nat) (f : Nat → Nat)
    (h : ∀ c ∈ l, f c = c) : l.map f = l := by
  induction l with
  | nil => rfl
  | cons a t iht =>
      simp only [List.map_cons, h a (by simp)]
      rw [iht (fun c hc => h c (by simp [hc]))]

/-- Round trip of the URL-safe key transport alphabet remap and padding:
re-padding and un-remapping a stripped, remapped Base64 string restores
the original Base64 string. -/
theorem fromUrlSafe_toUrlSafe (bs : List Nat) :
    fromUrlSafe (toUrlSafe (btoa bs)) = btoa bs := by
  obtain ⟨core, k, heq, hmem, hlen, hk⟩ := btoa_shape bs
  have halpha : ∀ c ∈ b64Alphabet, swapUrl c ≠ 61 ∧ swapStd (swapUrl c) = c ∧
      swapUrl 61 = 61 := by decide
  rw [heq]
  unfold toUrlSafe fromUrlSafe
  rw [List.map_append, List.map_replicate]
  have h61 : swapUrl 61 = 61 := rfl
  rw [h61]
  rw [dropTrailingEq_append_replicate _ _ ?hne]
  case hne =>
    intro c hc
    obtain ⟨c0, hc0, rfl⟩ := List.mem_map.mp hc
    exact (halpha c0 (hmem c0 hc0)).1
  rw [List.map_map]
  have hid : core.map (swapStd ∘ swapUrl) = core := by
    apply map_id_of_forall
    intro c hc
    exact (halpha c (hmem c hc)).2.1
  rw [hid]
  unfold padB64
  have hlenmap : (4 - core.length % 4) % 4 = k := by omega
  rw [hlenmap]

theorem xorStream_length (key iv : List Nat) :
    ∀ i l, (xorStream key iv i l).length = l.length := by
  intro i l
  induction l generalizing i with
  | nil => rfl
  | cons b rest ih => simp [xorStream, ih]

theorem xorStream_xorStream (key iv : List Nat) :
    ∀ i l, xorStream key iv i (xorStream key iv i l) = l := by
  intro i l
  induction l generalizing i with
  | nil => rfl
  | cons b rest ih =>
      simp only [xorStream, ih]
      congr 1
      rw [Nat.xor_assoc, Nat.xor_self, Nat.xor_zero]

theorem gcmTag_length (key iv body : List Nat) :
    (gcmTag key iv body).length = iv.length + 4 := by
  simp [gcmTag]

theorem gcmEncrypt_length (key iv pt : List Nat) :
    (gcmEncrypt key iv pt).length = pt.length + (iv.length + 4) := by
  simp [gcmEncrypt, gcmTag_length, xorStream_length]

/-- Idealized AES-GCM round trip: decrypting an encryption under the same
key and IV succeeds and restores the plaintext. -/
theorem gcmDecrypt_gcmEncrypt (key iv pt : List Nat) :
    gcmDecrypt key iv (gcmEncrypt key iv pt) = some pt := by
  have hbody : (xorStream key iv 0 pt).length = pt.length :=
    xorStream_length key iv 0 pt
  have htake : (gcmEncrypt key iv pt).take pt.length = xorStream key iv 0 pt := by
    unfold gcmEncrypt
    rw [← hbody, List.take_left]
  have hdrop : (gcmEncrypt key iv pt).drop pt.length =
      gcmTag key iv (xorStream key iv 0 pt) := by
    unfold gcmEncrypt
    rw [← hbody, List.drop_left]
  unfold gcmDecrypt
  rw [gcmEncrypt_length]
  rw [if_pos (by omega)]
  have hcut : pt.length + (iv.length + 4) - (iv.length + 4) = pt.length := by
    omega
  rw [hcut, htake, hdrop, if_pos rfl, xorStream_xorStream]

theorem isBytes_btoa (bs : List Nat) : isBytes (btoa bs) := by
  obtain ⟨core, k, heq, hmem, -, -⟩ := btoa_shape bs
  intro c hc
  rw [heq] at hc
  rcases List.mem_append.mp hc with h | h
  · have halpha : ∀ c ∈ b64Alphabet, c < 256 := by decide
    exact halpha c (hmem c h)
  · have := List.eq_of_mem_replicate h
    omega

theorem mem_of_mem_dropWhile (p : Nat → Bool) (l : List Nat) (c : Nat)
    (h : c ∈ l.dropWhile p) : c ∈ l := by
  induction l with
  | nil => simpa using h
  | cons a t ih =>
      rw [List.dropWhile_cons] at h
      split at h
      · exact List.mem_cons_of_mem a (ih h)
      · exact h

theorem swapUrl_lt (c : Nat) (h : c < 256) : swapUrl c < 256 := by
  unfold swapUrl
  split
  · omega
  split <;> omega

theorem isBytes_toUrlSafe (s : List Nat) (h : isBytes s) :
    isBytes (toUrlSafe s) := by
  intro c hc
  unfold toUrlSafe dropTrailingEq at hc
  rw [List.mem_reverse] at hc
  have hc2 : c ∈ (s.map swapUrl).reverse := mem_of_mem_dropWhile _ _ _ hc
  rw [List.mem_reverse, List.mem_map] at hc2
  obtain ⟨c0, hc0, rfl⟩ := hc2
  exact swapUrl_lt c0 (h c0 hc0)

theorem isBytes_exportKeyJwkString (key : List Nat) :
    isBytes (exportKeyJwkString key) := by
  intro c hc
  unfold exportKeyJwkString at hc
  rcases List.mem_append.mp hc with h2 | h2
  · rcases List.mem_append.mp h2 with h3 | h3
    · have : ∀ c ∈ jwkHead, c < 256 := by decide
      exact this c h3
    · exact isBytes_toUrlSafe _ (isBytes_btoa key) c h3
  · have : ∀ c ∈ jwkTail, c < 256 := by decide
    exact this c h2

/-- Importing an exported 256-bit key restores the raw key bytes. -/
theorem importKeyJwkString_exportKeyJwkString (key : List Nat)
    (h : isBytes key) (hlen : key.length = 32) :
    importKeyJwkString (exportKeyJwkString key) = some key := by
  have hs : (jwkHead ++ toUrlSafe (btoa key) ++ jwkTail).length =
      jwkHead.length + (toUrlSafe (btoa key)).length + jwkTail.length := by
    simp only [List.length_append]
  have htake1 : (jwkHead ++ toUrlSafe (btoa key) ++ jwkTail).take
      jwkHead.length = jwkHead := by
    rw [List.append_assoc, List.take_left]
  have hdrop2 : (jwkHead ++ toUrlSafe (btoa key) ++ jwkTail).drop
      ((jwkHead ++ toUrlSafe (btoa key) ++ jwkTail).length -
        jwkTail.length) = jwkTail := by
    rw [hs]
    have he : jwkHead.length + (toUrlSafe (btoa key)).length +
        jwkTail.length - jwkTail.length =
        (jwkHead ++ toUrlSafe (btoa key)).length := by
      simp [List.length_append]
    rw [he, List.drop_left]
  have hmid : ((jwkHead ++ toUrlSafe (btoa key) ++ jwkTail).drop
      jwkHead.length).take
      ((jwkHead ++ toUrlSafe (btoa key) ++ jwkTail).length -
        jwkTail.length - jwkHead.length) = toUrlSafe (btoa key) := by
    have he : (jwkHead ++ toUrlSafe (btoa key) ++ jwkTail).length -
        jwkTail.length - jwkHead.length = (toUrlSafe (btoa key)).length := by
      simp only [List.length_append]
      omega
    rw [he, List.append_assoc, List.drop_left, List.take_left]
  unfold importKeyJwkString exportKeyJwkString
  rw [htake1, if_pos rfl, hdrop2, if_pos rfl, hmid, fromUrlSafe_toUrlSafe,
    atob_btoa key h]
  simp [hlen]

theorem takeWhile_append_stop (p : Nat → Bool) (xs zs : List Nat) (y : Nat)
    (hx : ∀ x ∈ xs, p x = true) (hy : p y = false) :
    (xs ++ y :: zs).takeWhile p = xs := by
  induction xs with
  | nil => simp [List.takeWhile_cons, hy]
  | cons a t ih =>
      simp only [List.cons_append, List.takeWhile_cons, hx a (by simp),
        if_true]
      rw [ih (fun x hx2 => hx x (by simp [hx2]))]

/-- Parsing a serialized metadata object restores it, provided the field
values contain no quote byte. -/
theorem parseMeta_jsonMeta (m : Meta)
    (hn : ∀ x ∈ m.name, x ≠ 34) (ht : ∀ x ∈ m.ty, x ≠ 34) :
    parseMeta (jsonMeta m) = some m := by
  have hns : ∀ x ∈ m.name, (x != 34) = true := by
    intro x hx
    simpa using hn x hx
  have hts : ∀ x ∈ m.ty, (x != 34) = true := by
    intro x hx
    simpa using ht x hx
  have hshape : jsonMeta m =
      mHead ++ (m.name ++ (mMid ++ (m.ty ++ mTail))) := by
    simp [jsonMeta, List.append_assoc]
  have e1 : (m.name ++ (mMid ++ (m.ty ++ mTail))).takeWhile
      (fun b => b != 34) = m.name := by
    have hc : mMid ++ (m.ty ++ mTail) =
        34 :: ([44, 34, 116, 121, 112, 101, 34, 58, 34] ++
          (m.ty ++ mTail)) := rfl
    rw [hc]
    exact takeWhile_append_stop _ m.name _ 34 hns rfl
  have e5 : (m.ty ++ mTail).takeWhile (fun b => b != 34) = m.ty := by
    have hc : mTail = 34 :: [125] := rfl
    rw [hc]
    exact takeWhile_append_stop _ m.ty _ 34 hts rfl
  rw [hshape]
  simp only [parseMeta]
  rw [List.take_left, if_pos rfl, List.drop_left, e1, List.drop_left,
    List.take_left, if_pos rfl, List.drop_left, e5, List.drop_left,
    if_pos rfl]

/-- The transport key string decodes back to the key it encodes. -/
theorem importKeyFromString_keyStringOf (key : List Nat) (h : isBytes key)
    (hlen : key.length = 32) :
    importKeyFromString (keyStringOf key) = some key := by
  unfold importKeyFromString keyStringOf
  rw [fromUrlSafe_toUrlSafe, atob_btoa _ (isBytes_exportKeyJwkString key)]
  simpa using importKeyJwkString_exportKeyJwkString key h hlen

theorem find?_map_pred {α : Type} (l : List α) (f : α → α) (p : α → Bool)
    (hp : ∀ x, p (f x) = p x) : (l.map f).find? p = (l.find? p).map f := by
  induction l with
  | nil => rfl
  | cons a t ih =>
      by_cases h : p a = true
      · rw [List.map_cons, List.find?_cons_of_pos _ (by rw [hp]; exact h),
          List.find?_cons_of_pos _ h]
        rfl
      · have hf : p a = false := by
          cases hq : p a
          · rfl
          · exact absurd hq h
        rw [List.map_cons, List.find?_cons_of_neg _ (by rw [hp, hf]; simp),
          List.find?_cons_of_neg _ (by rw [hf]; simp), ih]

theorem ksByte_lt (key iv : List Nat) (i : Nat) : ksByte key iv i < 256 :=
  Nat.mod_lt _ (by omega)

theorem isBytes_xorStream (key iv pt : List Nat) (h : isBytes pt) :
    ∀ i, isBytes (xorStream key iv i pt) := by
  induction pt with
  | nil =>
      intro i b hb
      simp [xorStream] at hb
  | cons a t ih =>
      intro i b hb
      simp only [xorStream, List.mem_cons] at hb
      rcases hb with rfl | hb2
      · have ha : a < 256 := h a (by simp)
        have hk : ksByte key iv i < 256 := ksByte_lt key iv i
        have e : (2:Nat) ^ 8 = 256 := by norm_num
        rw [← e] at ha hk ⊢
        exact Nat.xor_lt_two_pow ha hk
      · exact ih (fun x hx => h x (by simp [hx])) (i + 1) b hb2

theorem isBytes_gcmTag (key iv body : List Nat) : isBytes (gcmTag key iv body) := by
  intro c hc
  unfold gcmTag at hc
  rcases List.mem_append.mp hc with h | h
  · obtain ⟨b, -, rfl⟩ := List.mem_map.mp h
    exact Nat.mod_lt _ (by omega)
  · simp only [List.mem_cons, List.not_mem_nil, or_false] at h
    rcases h with rfl | rfl | rfl | rfl
    all_goals exact Nat.mod_lt _ (by omega)

theorem isBytes_gcmEncrypt (key iv pt : List Nat) (h : isBytes pt) :
    isBytes (gcmEncrypt key iv pt) := by
  intro c hc
  unfold gcmEncrypt at hc
  rcases List.mem_append.mp hc with h2 | h2
  · exact isBytes_xorStream key iv pt h 0 c h2
  · exact isBytes_gcmTag key iv _ c h2

theorem isBytes_jsonMeta (m : Meta) (h1 : isBytes m.name) (h2 : isBytes m.ty) :
    isBytes (jsonMeta m) := by
  intro c hc
  unfold jsonMeta at hc
  have hh : ∀ c ∈ mHead, c < 256 := by decide
  have hm : ∀ c ∈ mMid, c < 256 := by decide
  have htl : ∀ c ∈ mTail, c < 256 := by decide
  rcases List.mem_append.mp hc with h3 | h3
  rotate_left
  · exact htl c h3
  rcases List.mem_append.mp h3 with h4 | h4
  rotate_left
  · exact h2 c h4
  rcases List.mem_append.mp h4 with h5 | h5
  rotate_left
  · exact hm c h5
  rcases List.mem_append.mp h5 with h6 | h6
  · exact hh c h6
  · exact h1 c h6

/-- Claim C1: payload round-trip through key transport.  For every
plaintext byte sequence, every 256-bit key and every IV draw, decrypting
the blob produced by `encryptFile` with `decryptFile`, supplying the
URL-safe Base64 key string and the Base64 IV string that `encryptFile`
returned, restores the plaintext exactly; in particular the transport key
string decodes to a key usable to decrypt what the original key
encrypted. -/
theorem c1_payload_roundtrip (P K r : List Nat) (hK : isBytes K)
    (hKlen : K.length = 32) (hr : isBytes r) :
    decryptFile (encryptFile P K r).encryptedBlob
      (encryptFile P K r).keyString (encryptFile P K r).iv = some P := by
  simp only [encryptFile]
  unfold decryptFile
  rw [importKeyFromString_keyStringOf K hK hKlen]
  simp [atob_btoa r hr, gcmDecrypt_gcmEncrypt]

/-- Witness for C1 at a concrete payload, key and IV draw. -/
theorem c1_payload_roundtrip_witness :
    isBytes (List.range 32) ∧ (List.range 32).length = 32 ∧
    isBytes (List.range 12) ∧
    decryptFile
      (encryptFile [10, 20, 30] (List.range 32) (List.range 12)).encryptedBlob
      (encryptFile [10, 20, 30] (List.range 32) (List.range 12)).keyString
      (encryptFile [10, 20, 30] (List.range 32) (List.range 12)).iv =
      some [10, 20, 30] :=
  ⟨by decide, by decide, by decide,
   c1_payload_roundtrip [10, 20, 30] (List.range 32) (List.range 12)
     (by decide) (by decide) (by decide)⟩

/-- Claim C2: metadata round-trip.  For every metadata object (with
byte-string field values free of JSON escapes), every 256-bit key and
every IV draw, decrypting the string produced by `encryptMetadata` —
either with `decryptMetadataWithKey` and the key itself, or with
`decryptMetadata` and the key's transport encoding — returns the original
object. -/
theorem c2_metadata_roundtrip (m : Meta) (K r : List Nat) (hK : isBytes K)
    (hKlen : K.length = 32) (hr : isBytes r) (hrlen : r.length = 12)
    (hm1 : isBytes m.name) (hm2 : isBytes m.ty)
    (hn : ∀ x ∈ m.name, x ≠ 34) (ht : ∀ x ∈ m.ty, x ≠ 34) :
    decryptMetadataWithKey (encryptMetadata m K r) K = some m ∧
    decryptMetadata (encryptMetadata m K r) (keyStringOf K) = some m := by
  have hcomb : isBytes (r ++ gcmEncrypt K r (jsonMeta m)) := by
    intro c hc
    rcases List.mem_append.mp hc with h | h
    · exact hr c h
    · exact isBytes_gcmEncrypt K r _ (isBytes_jsonMeta m hm1 hm2) c h
  have hiv : IV_LENGTH = r.length := by rw [hrlen]; rfl
  have hsplit1 : (r ++ gcmEncrypt K r (jsonMeta m)).take IV_LENGTH = r := by
    rw [hiv, List.take_left]
  have hsplit2 : (r ++ gcmEncrypt K r (jsonMeta m)).drop IV_LENGTH =
      gcmEncrypt K r (jsonMeta m) := by
    rw [hiv, List.drop_left]
  constructor
  · unfold decryptMetadataWithKey encryptMetadata
    rw [atob_btoa _ hcomb]
    simp only [Option.bind_eq_bind, Option.some_bind, hsplit1, hsplit2]
    rw [gcmDecrypt_gcmEncrypt]
    simpa using parseMeta_jsonMeta m hn ht
  · unfold decryptMetadata encryptMetadata
    rw [importKeyFromString_keyStringOf K hK hKlen]
    simp only [Option.bind_eq_bind, Option.some_bind]
    rw [atob_btoa _ hcomb]
    simp only [Option.some_bind, hsplit1, hsplit2]
    rw [gcmDecrypt_gcmEncrypt]
    simpa using parseMeta_jsonMeta m hn ht

/-- Witness for C2 at a concrete metadata object, key and IV draw. -/
theorem c2_metadata_roundtrip_witness :
    decryptMetadataWithKey
      (encryptMetadata ⟨[114, 46, 112], [97, 112, 112]⟩ (List.range 32)
        (List.range 12)) (List.range 32) =
      some ⟨[114, 46, 112], [97, 112, 112]⟩ ∧
    decryptMetadata
      (encryptMetadata ⟨[114, 46, 112], [97, 112, 112]⟩ (List.range 32)
        (List.range 12)) (keyStringOf (List.range 32)) =
      some ⟨[114, 46, 112], [97, 112, 112]⟩ :=
  c2_metadata_roundtrip ⟨[114, 46, 112], [97, 112, 112]⟩ (List.range 32)
    (List.range 12) (by decide) (by decide) (by decide) (by decide)
    (by decide) (by decide) (by decide) (by decide)

/-- Claim C8: metadata envelope wire format.  The string returned by
`encryptMetadata` is the Base64 encoding of the 12-byte IV immediately
followed by the AEAD ciphertext carrying its embedded 16-byte tag, and
the decryption side recovers IV and ciphertext by splitting exactly the
first 12 bytes of the Base64-decoded input, so decryption with the same
key restores the object. -/
theorem c8_metadata_wire_format (m : Meta) (K r : List Nat) (hK : isBytes K)
    (hKlen : K.length = 32) (hr : isBytes r) (hrlen : r.length = 12)
    (hm1 : isBytes m.name) (hm2 : isBytes m.ty)
    (hn : ∀ x ∈ m.name, x ≠ 34) (ht : ∀ x ∈ m.ty, x ≠ 34) :
    atob (encryptMetadata m K r) =
      some (r ++ gcmEncrypt K r (jsonMeta m)) ∧
    (gcmEncrypt K r (jsonMeta m)).length = (jsonMeta m).length + 16 ∧
    (gcmEncrypt K r (jsonMeta m)).drop (jsonMeta m).length =
      gcmTag K r (xorStream K r 0 (jsonMeta m)) ∧
    (gcmTag K r (xorStream K r 0 (jsonMeta m))).length = 16 ∧
    (r ++ gcmEncrypt K r (jsonMeta m)).take IV_LENGTH = r ∧
    (r ++ gcmEncrypt K r (jsonMeta m)).drop IV_LENGTH =
      gcmEncrypt K r (jsonMeta m) ∧
    decryptMetadataWithKey (encryptMetadata m K r) K = some m := by
  have hcomb : isBytes (r ++ gcmEncrypt K r (jsonMeta m)) := by
    intro c hc
    rcases List.mem_append.mp hc with h | h
    · exact hr c h
    · exact isBytes_gcmEncrypt K r _ (isBytes_jsonMeta m hm1 hm2) c h
  have hiv : IV_LENGTH = r.length := by rw [hrlen]; rfl
  have hbody : (xorStream K r 0 (jsonMeta m)).length = (jsonMeta m).length :=
    xorStream_length K r 0 (jsonMeta m)
  refine ⟨?_, ?_, ?_, ?_, ?_, ?_, ?_⟩
  · unfold encryptMetadata
    exact atob_btoa _ hcomb
  · rw [gcmEncrypt_length, hrlen]
  · unfold gcmEncrypt
    rw [← hbody, List.drop_left]
  · rw [gcmTag_length, hrlen]
  · rw [hiv, List.take_left]
  · rw [hiv, List.drop_left]
  · unfold decryptMetadataWithKey encryptMetadata
    rw [atob_btoa _ hcomb]
    simp only [Option.bind_eq_bind, Option.some_bind]
    rw [hiv, List.take_left, List.drop_left, gcmDecrypt_gcmEncrypt]
    simpa using parseMeta_jsonMeta m hn ht

/-- Witness for C8 at a concrete metadata object, key and IV draw. -/
theorem c8_metadata_wire_format_witness :
    atob (encryptMetadata ⟨[97], [98]⟩ (List.range 32) (List.range 12)) =
      some (List.range 12 ++ gcmEncrypt (List.range 32) (List.range 12)
        (jsonMeta ⟨[97], [98]⟩)) ∧
    (gcmEncrypt (List.range 32) (List.range 12) (jsonMeta ⟨[97], [98]⟩)).length =
      (jsonMeta ⟨[97], [98]⟩).length + 16 ∧
    decryptMetadataWithKey
      (encryptMetadata ⟨[97], [98]⟩ (List.range 32) (List.range 12))
      (List.range 32) = some ⟨[97], [98]⟩ := by
  have h := c8_metadata_wire_format ⟨[97], [98]⟩ (List.range 32)
    (List.range 12) (by decide) (by decide) (by decide) (by decide)
    (by decide) (by decide) (by decide) (by decide)
  exact ⟨h.1, h.2.1, h.2.2.2.2.2.2⟩

theorem btoa_inj (a b : List Nat) (ha : isBytes a) (hb : isBytes b)
    (h : btoa a = btoa b) : a = b := by
  have h1 := atob_btoa a ha
  rw [h, atob_btoa b hb] at h1
  exact (Option.some.inj h1).symm

theorem map_inj_bytes (f : Nat → Nat)
    (hf : ∀ x y, x < 256 → y < 256 → f x = f y → x = y) :
    ∀ a b : List Nat, isBytes a → isBytes b → a.map f = b.map f → a = b := by
  intro a
  induction a with
  | nil =>
      intro b _ _ h
      cases b with
      | nil => rfl
      | cons y s => simp at h
  | cons x t ih =>
      intro b ha hb h
      cases b with
      | nil => simp at h
      | cons y s =>
          simp only [List.map_cons, List.cons.injEq] at h
          have hx : x < 256 := ha x (by simp)
          have hy : y < 256 := hb y (by simp)
          have hxy : x = y := hf x y hx hy h.1
          rw [hxy, ih s (fun z hz => ha z (by simp [hz]))
            (fun z hz => hb z (by simp [hz])) h.2]

/-- Encrypting the same plaintext under the same key with different IVs
of the same length yields different ciphertexts in the idealized AES-GCM
model: either the keystreams differ (different bodies) or the IV-indexed
tag bytes differ. -/
theorem gcmEncrypt_ne_of_iv_ne (K P r1 r2 : List Nat) (hne : r1 ≠ r2)
    (h1 : isBytes r1) (h2 : isBytes r2) (hlen : r1.length = r2.length) :
    gcmEncrypt K r1 P ≠ gcmEncrypt K r2 P := by
  intro heq
  by_cases hbody : xorStream K r1 0 P = xorStream K r2 0 P
  · unfold gcmEncrypt at heq
    rw [hbody] at heq
    have htag := List.append_cancel_left heq
    unfold gcmTag at htag
    have hmap := (List.append_inj htag (by simp [hlen])).1
    exact hne (map_inj_bytes _ (fun x y hx hy hf => by omega) r1 r2 h1 h2 hmap)
  · unfold gcmEncrypt at heq
    have hlens : (xorStream K r1 0 P).length = (xorStream K r2 0 P).length := by
      simp [xorStream_length]
    exact hbody (List.append_inj heq hlens).1

/-- Claim C5: IV non-reuse.  `encryptFile` and `encryptMetadata` each
carry their own independently drawn random IV into the envelope, and
whenever the two random draws differ, encrypting the same plaintext twice
under the same key produces envelopes whose IV strings and ciphertexts
differ, and two metadata envelopes that differ as strings. -/
theorem c5_iv_nonreuse (P K r1 r2 : List Nat) (m : Meta)
    (hne : r1 ≠ r2) (h1 : isBytes r1) (h2 : isBytes r2)
    (hl1 : r1.length = 12) (hl2 : r2.length = 12)
    (hm1 : isBytes m.name) (hm2 : isBytes m.ty) :
    (encryptFile P K r1).ivBytes = r1 ∧
    encryptMetadata m K r2 = btoa (r2 ++ gcmEncrypt K r2 (jsonMeta m)) ∧
    (encryptFile P K r1).iv ≠ (encryptFile P K r2).iv ∧
    (encryptFile P K r1).encryptedBlob ≠ (encryptFile P K r2).encryptedBlob ∧
    encryptMetadata m K r1 ≠ encryptMetadata m K r2 := by
  refine ⟨rfl, rfl, ?_, ?_, ?_⟩
  · simp only [encryptFile]
    intro heq
    exact hne (btoa_inj r1 r2 h1 h2 heq)
  · simp only [encryptFile]
    exact gcmEncrypt_ne_of_iv_ne K P r1 r2 hne h1 h2 (by omega)
  · unfold encryptMetadata
    intro heq
    have hc1 : isBytes (r1 ++ gcmEncrypt K r1 (jsonMeta m)) := by
      intro c hc
      rcases List.mem_append.mp hc with h | h
      · exact h1 c h
      · exact isBytes_gcmEncrypt K r1 _ (isBytes_jsonMeta m hm1 hm2) c h
    have hc2 : isBytes (r2 ++ gcmEncrypt K r2 (jsonMeta m)) := by
      intro c hc
      rcases List.mem_append.mp hc with h | h
      · exact h2 c h
      · exact isBytes_gcmEncrypt K r2 _ (isBytes_jsonMeta m hm1 hm2) c h
    have := btoa_inj _ _ hc1 hc2 heq
    exact hne (List.append_inj this (by omega)).1

/-- Witness for C5 at two concrete differing IV draws. -/
theorem c5_iv_nonreuse_witness :
    (encryptFile [7] (List.range 32) (List.range 12)).iv ≠
      (encryptFile [7] (List.range 32) (List.iota 12)).iv ∧
    (encryptFile [7] (List.range 32) (List.range 12)).encryptedBlob ≠
      (encryptFile [7] (List.range 32) (List.iota 12)).encryptedBlob ∧
    encryptMetadata ⟨[97], [98]⟩ (List.range 32) (List.range 12) ≠
      encryptMetadata ⟨[97], [98]⟩ (List.range 32) (List.iota 12) := by
  have h := c5_iv_nonreuse [7] (List.range 32) (List.range 12) (List.iota 12)
    ⟨[97], [98]⟩ (by decide) (by decide) (by decide) (by decide) (by decide)
    (by decide) (by decide)
  exact ⟨h.2.2.1, h.2.2.2.1, h.2.2.2.2⟩

theorem iterationsOrLegacy_some (n : Nat) (h : n ≠ 0) :
    iterationsOrLegacy (some n) = n := by
  cases n with
  | zero => exact absurd rfl h
  | succ m => rfl

theorem iterationsOrLegacy_none : iterationsOrLegacy none = LEGACY_ITERATIONS :=
  rfl

/-- Core unwrap computation: on well-formed Base64 fields, the unwrap is
the decryption of the stored blob under the key derived at the effective
iteration count. -/
theorem unwrapKeyWithPassword_eq (password salt iv encKey : List Nat)
    (iterations : Option Nat) (hsalt : isBytes salt) (hiv : isBytes iv)
    (henc : isBytes encKey) :
    unwrapKeyWithPassword (btoa encKey) password (btoa salt) (btoa iv)
      iterations =
    (match gcmDecrypt (derivePasswordKey_Simple password salt
        (iterationsOrLegacy iterations)) iv encKey with
      | some raw => match importKeyRaw raw with
        | some k => UnwrapResult.ok k
        | none => UnwrapResult.incorrectPassword
      | none => UnwrapResult.incorrectPassword) := by
  unfold unwrapKeyWithPassword
  rw [atob_btoa _ hsalt, atob_btoa _ hiv, atob_btoa _ henc]

/-- Claim C3: password wrap round-trip.  For every 256-bit file key and
every password, unwrapping the record returned by `wrapKeyWithPassword`
(its encryptedKey, salt, iv and iterations fields) with the same password
returns exactly the original key, which therefore decrypts anything the
original key encrypted. -/
theorem c3_password_wrap_roundtrip (K W salt iv : List Nat)
    (hK : isBytes K) (hKlen : K.length = 32) (hsalt : isBytes salt)
    (hiv : isBytes iv) :
    unwrapKeyWithPassword (wrapKeyWithPassword K W salt iv).encryptedKey W
      (wrapKeyWithPassword K W salt iv).salt
      (wrapKeyWithPassword K W salt iv).iv
      (some (wrapKeyWithPassword K W salt iv).iterations) = .ok K ∧
    (∀ iv2 P, gcmDecrypt K iv2 (gcmEncrypt K iv2 P) = some P) := by
  constructor
  · simp only [wrapKeyWithPassword]
    rw [unwrapKeyWithPassword_eq W salt iv _ _ hsalt hiv
      (isBytes_gcmEncrypt _ iv K hK)]
    rw [iterationsOrLegacy_some _ (by decide), gcmDecrypt_gcmEncrypt]
    simp [importKeyRaw, hKlen]
  · intro iv2 P
    exact gcmDecrypt_gcmEncrypt K iv2 P

/-- Witness for C3 at a concrete key, password, salt and IV. -/
theorem c3_password_wrap_roundtrip_witness :
    unwrapKeyWithPassword
      (wrapKeyWithPassword (List.range 32) [97, 98, 99] (List.range 16)
        (List.range 12)).encryptedKey [97, 98, 99]
      (wrapKeyWithPassword (List.range 32) [97, 98, 99] (List.range 16)
        (List.range 12)).salt
      (wrapKeyWithPassword (List.range 32) [97, 98, 99] (List.range 16)
        (List.range 12)).iv
      (some (wrapKeyWithPassword (List.range 32) [97, 98, 99] (List.range 16)
        (List.range 12)).iterations) = .ok (List.range 32) :=
  (c3_password_wrap_roundtrip (List.range 32) [97, 98, 99] (List.range 16)
    (List.range 12) (by decide) (by decide) (by decide) (by decide)).1

/-- Claim C4: wrong-password rejection.  Whenever the AES-GCM
authentication check fails during unwrap — in particular when the
wrapping was created under one password and a different one is supplied —
`unwrapKeyWithPassword` fails with the single undifferentiated
IncorrectPassword error and never returns a key; the same single error is
produced whatever stored field (salt, IV, ciphertext) caused the check to
fail, and also when the decrypted bytes fail to import as a key. -/
theorem c4_wrong_password_rejection (W salt iv encKey : List Nat)
    (iterations : Option Nat) (hsalt : isBytes salt) (hiv : isBytes iv)
    (henc : isBytes encKey)
    (hfail : gcmDecrypt (derivePasswordKey_Simple W salt
        (iterationsOrLegacy iterations)) iv encKey = none ∨
      (∃ raw, gcmDecrypt (derivePasswordKey_Simple W salt
        (iterationsOrLegacy iterations)) iv encKey = some raw ∧
        raw.length ≠ 32)) :
    unwrapKeyWithPassword (btoa encKey) W (btoa salt) (btoa iv) iterations =
      .incorrectPassword ∧
    (∀ K2, unwrapKeyWithPassword (btoa encKey) W (btoa salt) (btoa iv)
      iterations ≠ .ok K2) := by
  have hmain : unwrapKeyWithPassword (btoa encKey) W (btoa salt) (btoa iv)
      iterations = .incorrectPassword := by
    rw [unwrapKeyWithPassword_eq W salt iv encKey iterations hsalt hiv henc]
    rcases hfail with h | ⟨raw, hr, hlen⟩
    · rw [h]
    · rw [hr]
      simp [importKeyRaw, hlen]
  exact ⟨hmain, fun K2 h => by rw [hmain] at h; cases h⟩

set_option maxRecDepth 1000000 in
/-- Witness for C4: a wrapping created with one password, unwrapped with
a different password, on which the authentication check concretely
fails. -/
theorem c4_wrong_password_rejection_witness :
    gcmDecrypt (derivePasswordKey_Simple [120, 121] (List.range 16)
        (iterationsOrLegacy (some CURRENT_ITERATIONS))) (List.range 12)
      (gcmEncrypt (derivePasswordKey_Simple [97, 98, 99] (List.range 16)
        CURRENT_ITERATIONS) (List.range 12) (List.range 32)) = none ∧
    unwrapKeyWithPassword
      (btoa (gcmEncrypt (derivePasswordKey_Simple [97, 98, 99]
        (List.range 16) CURRENT_ITERATIONS) (List.range 12) (List.range 32)))
      [120, 121] (btoa (List.range 16)) (btoa (List.range 12))
      (some CURRENT_ITERATIONS) = .incorrectPassword :=
  ⟨by decide,
   (c4_wrong_password_rejection [120, 121] (List.range 16) (List.range 12)
     (gcmEncrypt (derivePasswordKey_Simple [97, 98, 99] (List.range 16)
       CURRENT_ITERATIONS) (List.range 12) (List.range 32))
     (some CURRENT_ITERATIONS) (by decide) (by decide) (by decide)
     (Or.inl (by decide))).1⟩

/-- Claim C7: iteration-count backward compatibility.
`wrapKeyWithPassword` records the iteration count actually used (the
current default 310000) in the returned record; `unwrapKeyWithPassword`
re-derives with the stored count when one is supplied and falls back to
the legacy default 100000 when it is absent; hence a wrapping created at
the legacy count still unwraps correctly when that count is explicitly
supplied (or omitted), even though the current default has changed. -/
theorem c7_iteration_backcompat (K W salt iv : List Nat)
    (hK : isBytes K) (hKlen : K.length = 32) (hsalt : isBytes salt)
    (hiv : isBytes iv) :
    (wrapKeyWithPassword K W salt iv).iterations = CURRENT_ITERATIONS ∧
    CURRENT_ITERATIONS = 310000 ∧ LEGACY_ITERATIONS = 100000 ∧
    (∀ n, n ≠ 0 → iterationsOrLegacy (some n) = n) ∧
    iterationsOrLegacy none = LEGACY_ITERATIONS ∧
    unwrapKeyWithPassword
      (btoa (gcmEncrypt (derivePasswordKey_Simple W salt LEGACY_ITERATIONS)
        iv K)) W (btoa salt) (btoa iv) (some LEGACY_ITERATIONS) = .ok K ∧
    unwrapKeyWithPassword
      (btoa (gcmEncrypt (derivePasswordKey_Simple W salt LEGACY_ITERATIONS)
        iv K)) W (btoa salt) (btoa iv) none = .ok K := by
  refine ⟨rfl, rfl, rfl, iterationsOrLegacy_some, rfl, ?_, ?_⟩
  · rw [unwrapKeyWithPassword_eq W salt iv _ _ hsalt hiv
      (isBytes_gcmEncrypt _ iv K hK)]
    rw [iterationsOrLegacy_some _ (by decide), gcmDecrypt_gcmEncrypt]
    simp [importKeyRaw, hKlen]
  · rw [unwrapKeyWithPassword_eq W salt iv _ _ hsalt hiv
      (isBytes_gcmEncrypt _ iv K hK)]
    rw [iterationsOrLegacy_none, gcmDecrypt_gcmEncrypt]
    simp [importKeyRaw, hKlen]

/-- Witness for C7 at a concrete legacy-count wrapping. -/
theorem c7_iteration_backcompat_witness :
    (wrapKeyWithPassword (List.range 32) [113] (List.range 16)
      (List.range 12)).iterations = 310000 ∧
    unwrapKeyWithPassword
      (btoa (gcmEncrypt (derivePasswordKey_Simple [113] (List.range 16)
        LEGACY_ITERATIONS) (List.range 12) (List.range 32)))
      [113] (btoa (List.range 16)) (btoa (List.range 12))
      (some LEGACY_ITERATIONS) = .ok (List.range 32) := by
  have h := c7_iteration_backcompat (List.range 32) [113] (List.range 16)
    (List.range 12) (by decide) (by decide) (by decide) (by decide)
  exact ⟨h.1, h.2.2.2.2.2.1⟩

/-- `getDownloadToken` never writes the `files` table: it only reads the
file record, logs an attempt and inserts a token. -/
theorem getDownloadToken_files_eq (db : DB) (fid : Nat) (sid : Option Nat)
    (now ntok nid : Nat) :
    (getDownloadToken db fid sid now ntok nid).2.files = db.files := by
  unfold getDownloadToken issueToken
  repeat (first | rfl | split | dsimp only)

theorem runTokenReqs_files_eq (db : DB) (reqs : List TokenReq) :
    (runTokenReqs db reqs).files = db.files := by
  induction reqs generalizing db with
  | nil => rfl
  | cons r rest ih =>
      unfold runTokenReqs
      simp only [List.foldl_cons]
      have h1 := getDownloadToken_files_eq db r.fileId r.sessionId r.now
        r.newToken r.newId
      have h2 := ih (getDownloadToken db r.fileId r.sessionId r.now
        r.newToken r.newId).2
      unfold runTokenReqs at h2
      rw [h2, h1]

/-- Full reduction of a successful `confirmDownload`. -/
theorem confirmDownload_success (db : DB) (tok now : Nat) (tr : TokenRec)
    (f : FileRec)
    (h1 : db.tokens.find? (fun t => t.token == tok) = some tr)
    (h2 : ¬ tr.expiresAt < now) (h3 : tr.used = false)
    (h4 : db.files.find? (fun fl => fl.id == tr.fileId) = some f)
    (h5 : fileLimitReached f = false) :
    confirmDownload db tok now = (.success,
      { files := db.files.map (fun fl : FileRec =>
          if fl.id == tr.fileId then
            { fl with downloads := f.downloads + 1,
                      lastDownloadAt := some now }
          else fl),
        tokens := db.tokens.map (fun t : TokenRec =>
          if t.id == tr.id then { t with used := true } else t),
        attempts := db.attempts,
        history := if (db.history.find?
            (fun h : HistoryRec => h.fileId == tr.fileId)).isSome then
          db.history.map (fun x : HistoryRec =>
            if x.fileId == tr.fileId then
              { x with downloads := f.downloads + 1 }
            else x)
        else db.history }) := by
  unfold confirmDownload
  rw [h1]
  simp only [h3, h4, h5, if_neg h2]
  rfl

theorem find?_files_patch (files : List FileRec) (fid dl now : Nat)
    (f : FileRec) (h : files.find? (fun fl => fl.id == fid) = some f) :
    (files.map (fun fl : FileRec =>
      if fl.id == fid then
        { fl with downloads := dl, lastDownloadAt := some now }
      else fl)).find? (fun fl => fl.id == fid) =
    some { f with downloads := dl, lastDownloadAt := some now } := by
  have hp : ∀ x : FileRec,
      ((if x.id == fid then
          ({ x with downloads := dl, lastDownloadAt := some now } : FileRec)
        else x).id == fid) = (x.id == fid) := by
    intro x
    split <;> rfl
  rw [find?_map_pred _ _ _ hp, h]
  have hc : (f.id == fid) = true := by
    have h2 := List.find?_some h
    simpa using h2
  simp only [Option.map]
  rw [if_pos hc]

theorem find?_tokens_patch (tokens : List TokenRec) (tok tid : Nat)
    (tr : TokenRec) (h : tokens.find? (fun t => t.token == tok) = some tr) :
    (tokens.map (fun t : TokenRec =>
      if t.id == tid then { t with used := true } else t)).find?
      (fun t => t.token == tok) =
    some (if tr.id == tid then { tr with used := true } else tr) := by
  have hp : ∀ x : TokenRec,
      ((if x.id == tid then ({ x with used := true } : TokenRec)
        else x).token == tok) = (x.token == tok) := by
    intro x
    split <;> rfl
  rw [find?_map_pred _ _ _ hp, h]
  rfl

/-- Claim C6: two-phase counter guard.  A `getDownloadToken` request
never changes the `files` table (hence the downloads counter), and
neither does any sequence of such requests; a first `confirmDownload`
with a valid, unexpired, unused token for an existing file under its
limit succeeds and increments the counter by exactly one; a second
`confirmDownload` with the same (still unexpired) token is rejected as
already used and leaves the counter unchanged. -/
theorem c6_two_phase_counter (db : DB) (tok now now2 : Nat) (tr : TokenRec)
    (f : FileRec) (reqs : List TokenReq)
    (h1 : db.tokens.find? (fun t => t.token == tok) = some tr)
    (h2 : ¬ tr.expiresAt < now) (h3 : tr.used = false)
    (h4 : db.files.find? (fun fl => fl.id == tr.fileId) = some f)
    (h5 : fileLimitReached f = false)
    (h6 : ¬ tr.expiresAt < now2) :
    (∀ fid sid n ntok nid,
      (getDownloadToken db fid sid n ntok nid).2.files = db.files) ∧
    (runTokenReqs db reqs).files = db.files ∧
    (confirmDownload db tok now).1 = .success ∧
    fileDownloads (confirmDownload db tok now).2 tr.fileId =
      some (f.downloads + 1) ∧
    (confirmDownload (confirmDownload db tok now).2 tok now2).1 =
      .tokenUsed ∧
    fileDownloads (confirmDownload (confirmDownload db tok now).2 tok
      now2).2 tr.fileId = some (f.downloads + 1) := by
  have S := confirmDownload_success db tok now tr f h1 h2 h3 h4 h5
  have hdl : fileDownloads (confirmDownload db tok now).2 tr.fileId =
      some (f.downloads + 1) := by
    rw [S]
    unfold fileDownloads
    dsimp only
    rw [find?_files_patch db.files tr.fileId (f.downloads + 1) now f h4]
    rfl
  have hsecond : confirmDownload (confirmDownload db tok now).2 tok now2 =
      (.tokenUsed, (confirmDownload db tok now).2) := by
    rw [S]
    unfold confirmDownload
    dsimp only
    rw [find?_tokens_patch db.tokens tok tr.id tr h1]
    simp only [beq_self_eq_true, if_true]
    rw [if_neg h6]
  refine ⟨?_, runTokenReqs_files_eq db reqs, ?_, hdl, ?_, ?_⟩
  · intro fid sid n ntok nid
    exact getDownloadToken_files_eq db fid sid n ntok nid
  · rw [S]
  · rw [hsecond]
  · rw [hsecond]
    exact hdl

/-- Witness for C6 at a concrete database with one file, one valid token
and one repeated token request. -/
theorem c6_two_phase_counter_witness :
    (runTokenReqs
      { files := [{ id := 1, storageId := 9, expiresAt := none,
                    maxDownloads := some 2, downloads := 0,
                    passwordProtection := false, lastDownloadAt := none }],
        tokens := [{ id := 5, fileId := 1, token := 77, createdAt := 0,
                     used := false, expiresAt := 1000 }],
        attempts := [], history := [] }
      [⟨1, none, 0, 78, 6⟩, ⟨1, none, 0, 79, 7⟩]).files =
      [{ id := 1, storageId := 9, expiresAt := none, maxDownloads := some 2,
         downloads := 0, passwordProtection := false,
         lastDownloadAt := none }] ∧
    (confirmDownload
      { files := [{ id := 1, storageId := 9, expiresAt := none,
                    maxDownloads := some 2, downloads := 0,
                    passwordProtection := false, lastDownloadAt := none }],
        tokens := [{ id := 5, fileId := 1, token := 77, createdAt := 0,
                     used := false, expiresAt := 1000 }],
        attempts := [], history := [] } 77 10).1 = .success ∧
    fileDownloads (confirmDownload
      { files := [{ id := 1, storageId := 9, expiresAt := none,
                    maxDownloads := some 2, downloads := 0,
                    passwordProtection := false, lastDownloadAt := none }],
        tokens := [{ id := 5, fileId := 1, token := 77, createdAt := 0,
                     used := false, expiresAt := 1000 }],
        attempts := [], history := [] } 77 10).2 1 = some 1 ∧
    (confirmDownload (confirmDownload
      { files := [{ id := 1, storageId := 9, expiresAt := none,
                    maxDownloads := some 2, downloads := 0,
                    passwordProtection := false, lastDownloadAt := none }],
        tokens := [{ id := 5, fileId := 1, token := 77, createdAt := 0,
                     used := false, expiresAt := 1000 }],
        attempts := [], history := [] } 77 10).2 77 20).1 = .tokenUsed := by
  have h := c6_two_phase_counter
    { files := [{ id := 1, storageId := 9, expiresAt := none,
                  maxDownloads := some 2, downloads := 0,
                  passwordProtection := false, lastDownloadAt := none }],
      tokens := [{ id := 5, fileId := 1, token := 77, createdAt := 0,
                   used := false, expiresAt := 1000 }],
      attempts := [], history := [] } 77 10 20
    { id := 5, fileId := 1, token := 77, createdAt := 0, used := false,
      expiresAt := 1000 }
    { id := 1, storageId := 9, expiresAt := none, maxDownloads := some 2,
      downloads := 0, passwordProtection := false, lastDownloadAt := none }
    [⟨1, none, 0, 78, 6⟩, ⟨1, none, 0, 79, 7⟩]
    (by decide) (by decide) (by decide) (by decide) (by decide) (by decide)
  exact ⟨h.2.1, h.2.2.1, h.2.2.2.1, h.2.2.2.2.1⟩

/-- Claim C10: download-limit invariant.  With a set maxDownloads, a
`confirmDownload` arriving when the counter has already reached the limit
returns the LIMIT_REACHED error, deletes the token and leaves the files
table unchanged; and for every database whose files respect their limits
(with unique ids), the files table after any `confirmDownload` still
respects them — the counter never exceeds maxDownloads. -/
theorem c10_download_limit_invariant (db : DB) (tok now : Nat)
    (tr : TokenRec) (f : FileRec) (m : Nat)
    (h1 : db.tokens.find? (fun t => t.token == tok) = some tr)
    (h2 : ¬ tr.expiresAt < now) (h3 : tr.used = false)
    (h4 : db.files.find? (fun fl => fl.id == tr.fileId) = some f)
    (h5 : f.maxDownloads = some m) (h6 : m ≤ f.downloads) :
    (confirmDownload db tok now).1 = .limitReached ∧
    (confirmDownload db tok now).2.files = db.files ∧
    (confirmDownload db tok now).2.tokens =
      db.tokens.filter (fun t => t.id != tr.id) ∧
    (∀ db2 tok2 now2, (db2.files.map FileRec.id).Nodup →
      (∀ fl ∈ db2.files, ∀ mm, fl.maxDownloads = some mm →
        fl.downloads ≤ mm) →
      ∀ fl ∈ (confirmDownload db2 tok2 now2).2.files, ∀ mm,
        fl.maxDownloads = some mm → fl.downloads ≤ mm) := by
  have hlim : fileLimitReached f = true := by
    unfold fileLimitReached
    rw [h5]
    simpa using h6
  have hred : confirmDownload db tok now = (.limitReached,
      { db with tokens := db.tokens.filter (fun t => t.id != tr.id) }) := by
    unfold confirmDownload
    rw [h1]
    simp only [h3, h4, hlim, if_neg h2]
    rfl
  refine ⟨by rw [hred], by rw [hred], by rw [hred], ?_⟩
  intro db2 tok2 now2 hnodup hinv fl hfl mm hmm
  unfold confirmDownload at hfl
  cases h1b : db2.tokens.find? (fun t => t.token == tok2) with
  | none =>
      rw [h1b] at hfl
      exact hinv fl hfl mm hmm
  | some tr2 =>
      rw [h1b] at hfl
      dsimp only at hfl
      by_cases h2b : tr2.expiresAt < now2
      · rw [if_pos h2b] at hfl
        exact hinv fl hfl mm hmm
      · rw [if_neg h2b] at hfl
        by_cases h3b : tr2.used = true
        · rw [if_pos h3b] at hfl
          exact hinv fl hfl mm hmm
        · rw [if_neg h3b] at hfl
          cases h4b : db2.files.find? (fun fl2 => fl2.id == tr2.fileId) with
          | none =>
              rw [h4b] at hfl
              exact hinv fl hfl mm hmm
          | some file2 =>
              rw [h4b] at hfl
              dsimp only at hfl
              by_cases h5b : fileLimitReached file2 = true
              · rw [if_pos h5b] at hfl
                exact hinv fl hfl mm hmm
              · rw [if_neg h5b] at hfl
                dsimp only at hfl
                rcases List.mem_map.mp hfl with ⟨fl0, hfl0, rfl⟩
                by_cases hid : (fl0.id == tr2.fileId) = true
                · rw [if_pos hid] at hmm ⊢
                  dsimp only at hmm ⊢
                  have hfid : fl0.id = tr2.fileId := by simpa using hid
                  have hfid2 : file2.id = tr2.fileId := by
                    have h7 := List.find?_some h4b
                    simpa using h7
                  have heq : fl0 = file2 :=
                    List.inj_on_of_nodup_map hnodup hfl0
                      (List.mem_of_find?_eq_some h4b) (by rw [hfid, hfid2])
                  have h5c : fileLimitReached file2 = false := by
                    revert h5b
                    cases fileLimitReached file2 <;> simp
                  rw [heq] at hmm
                  unfold fileLimitReached at h5c
                  rw [hmm] at h5c
                  simp at h5c
                  omega
                · rw [if_neg hid] at hmm ⊢
                  exact hinv fl0 hfl0 mm hmm

/-- Witness for C10 at a concrete database whose single file is already
at its download limit. -/
theorem c10_download_limit_invariant_witness :
    (confirmDownload
      { files := [{ id := 1, storageId := 9, expiresAt := none,
                    maxDownloads := some 1, downloads := 1,
                    passwordProtection := false, lastDownloadAt := none }],
        tokens := [{ id := 5, fileId := 1, token := 77, createdAt := 0,
                     used := false, expiresAt := 1000 }],
        attempts := [], history := [] } 77 10).1 = .limitReached ∧
    (confirmDownload
      { files := [{ id := 1, storageId := 9, expiresAt := none,
                    maxDownloads := some 1, downloads := 1,
                    passwordProtection := false, lastDownloadAt := none }],
        tokens := [{ id := 5, fileId := 1, token := 77, createdAt := 0,
                     used := false, expiresAt := 1000 }],
        attempts := [], history := [] } 77 10).2.files =
      [{ id := 1, storageId := 9, expiresAt := none, maxDownloads := some 1,
         downloads := 1, passwordProtection := false,
         lastDownloadAt := none }] := by
  have h := c10_download_limit_invariant
    { files := [{ id := 1, storageId := 9, expiresAt := none,
                  maxDownloads := some 1, downloads := 1,
                  passwordProtection := false, lastDownloadAt := none }],
      tokens := [{ id := 5, fileId := 1, token := 77, createdAt := 0,
                   used := false, expiresAt := 1000 }],
      attempts := [], history := [] } 77 10
    { id := 5, fileId := 1, token := 77, createdAt := 0, used := false,
      expiresAt := 1000 }
    { id := 1, storageId := 9, expiresAt := none, maxDownloads := some 1,
      downloads := 1, passwordProtection := false, lastDownloadAt := none }
    1 (by decide) (by decide) (by decide) (by decide) (by decide) (by decide)
  exact ⟨h.1, h.2.1⟩

set_option maxRecDepth 1000000 in
/-- Counterexample to claim C9 as stated: a concrete password-protected
download in which the metadata decryption — a cryptographic primitive
failure occurring before the file-decryption boundary — fails, yet
`executeDownload` completes with status done and a saved file, surfacing
no error: the failure is silently swallowed by the inner catch block. -/
theorem c9_counterexample :
    decryptMetadataWithKey (btoa (List.range 12 ++ List.replicate 20 0))
      (List.range 32) = none ∧
    unwrapKeyWithPassword
      (wrapKeyWithPassword (List.range 32) [97, 98, 99] (List.range 16)
        (List.range 12)).encryptedKey [97, 98, 99]
      (wrapKeyWithPassword (List.range 32) [97, 98, 99] (List.range 16)
        (List.range 12)).salt
      (wrapKeyWithPassword (List.range 32) [97, 98, 99] (List.range 16)
        (List.range 12)).iv
      (some 310000) = .ok (List.range 32) ∧
    (executeDownload
      { encryptedMetadata := btoa (List.range 12 ++ List.replicate 20 0),
        iv := btoa (List.range 12), publicName := [112],
        passwordProtection := some
          { encryptedKey := (wrapKeyWithPassword (List.range 32)
              [97, 98, 99] (List.range 16) (List.range 12)).encryptedKey,
            salt := (wrapKeyWithPassword (List.range 32) [97, 98, 99]
              (List.range 16) (List.range 12)).salt,
            iv := (wrapKeyWithPassword (List.range 32) [97, 98, 99]
              (List.range 16) (List.range 12)).iv,
            iterations := some 310000 } }
      { urlHash := [], password := [97, 98, 99], turnstilePresent := true,
        turnstileVerified := true, tokenResp := .granted 1, fetchOk := true,
        blob := gcmEncrypt (List.range 32) (List.range 12) [5, 6],
        confirmOk := true }).status = .done ∧
    (executeDownload
      { encryptedMetadata := btoa (List.range 12 ++ List.replicate 20 0),
        iv := btoa (List.range 12), publicName := [112],
        passwordProtection := some
          { encryptedKey := (wrapKeyWithPassword (List.range 32)
              [97, 98, 99] (List.range 16) (List.range 12)).encryptedKey,
            salt := (wrapKeyWithPassword (List.range 32) [97, 98, 99]
              (List.range 16) (List.range 12)).salt,
            iv := (wrapKeyWithPassword (List.range 32) [97, 98, 99]
              (List.range 16) (List.range 12)).iv,
            iterations := some 310000 } }
      { urlHash := [], password := [97, 98, 99], turnstilePresent := true,
        turnstileVerified := true, tokenResp := .granted 1, fetchOk := true,
        blob := gcmEncrypt (List.range 32) (List.range 12) [5, 6],
        confirmOk := true }).savedFile = some [5, 6] := by
  refine ⟨by decide, by decide, by decide, by decide⟩

/-- Claim C9 (amended): in `executeDownload`, password-unwrap failures
(both the caught IncorrectPassword and the uncaught Base64 decode error)
reach the orchestration layer as distinguishable error kinds with nothing
saved; the final confirmation call after a successful save may fail
silently (status stays done); but a metadata-decryption failure on the
password path is silently caught — the download proceeds to completion
with the filename state simply left empty. -/
theorem c9_error_propagation (fileData : ClientFileMeta) (env : DlEnv)
    (pp : PasswordRec) (hpp : fileData.passwordProtection = some pp)
    (hpw : env.password ≠ []) (ht1 : env.turnstilePresent = true)
    (ht2 : env.turnstileVerified = true) :
    (unwrapKeyWithPassword pp.encryptedKey env.password pp.salt pp.iv
        pp.iterations = .incorrectPassword →
      (executeDownload fileData env).status = .error .incorrectPassword ∧
      (executeDownload fileData env).savedFile = none) ∧
    (unwrapKeyWithPassword pp.encryptedKey env.password pp.salt pp.iv
        pp.iterations = .decodeError →
      (executeDownload fileData env).status = .error .unwrapDecodeError ∧
      (executeDownload fileData env).savedFile = none) ∧
    (∀ fileKey pt tokv,
      unwrapKeyWithPassword pp.encryptedKey env.password pp.salt pp.iv
        pp.iterations = .ok fileKey →
      decryptMetadataWithKey fileData.encryptedMetadata fileKey = none →
      env.tokenResp = .granted tokv → env.fetchOk = true →
      ((atob fileData.iv).bind fun iv2 => gcmDecrypt fileKey iv2 env.blob) =
        some pt →
      (executeDownload fileData env).status = .done ∧
      (executeDownload fileData env).savedFile = some pt ∧
      (executeDownload fileData env).realFilename = none ∧
      (executeDownload fileData env).confirmed = env.confirmOk) := by
  refine ⟨?_, ?_, ?_⟩
  · intro h
    unfold executeDownload
    rw [hpp]
    try dsimp only
    rw [if_neg hpw, ht1, if_neg (fun hc => hc rfl), ht2,
      if_neg (fun hc => hc rfl), h]
    exact ⟨rfl, rfl⟩
  · intro h
    unfold executeDownload
    rw [hpp]
    try dsimp only
    rw [if_neg hpw, ht1, if_neg (fun hc => hc rfl), ht2,
      if_neg (fun hc => hc rfl), h]
    exact ⟨rfl, rfl⟩
  · intro fileKey pt tokv hok hmeta htok hfetch hdec
    unfold executeDownload
    rw [hpp]
    try dsimp only
    rw [if_neg hpw, ht1, if_neg (fun hc => hc rfl), ht2,
      if_neg (fun hc => hc rfl), hok]
    try dsimp only
    rw [hmeta]
    unfold dlAfterKey
    rw [htok]
    try dsimp only
    rw [hfetch]
    try dsimp only
    rw [hdec]
    exact ⟨rfl, rfl, rfl, rfl⟩

set_option maxRecDepth 1000000 in
/-- Witness for the amended C9 at a concrete run: unwrap succeeds,
metadata decryption fails and is swallowed, the file decrypts, the run
completes. -/
theorem c9_error_propagation_witness :
    (executeDownload
      { encryptedMetadata := btoa (List.range 12 ++ List.replicate 24 1),
        iv := btoa (List.range 12), publicName := [113],
        passwordProtection := some
          { encryptedKey := (wrapKeyWithPassword (List.range 32)
              [100, 101] (List.range 16) (List.range 12)).encryptedKey,
            salt := (wrapKeyWithPassword (List.range 32) [100, 101]
              (List.range 16) (List.range 12)).salt,
            iv := (wrapKeyWithPassword (List.range 32) [100, 101]
              (List.range 16) (List.range 12)).iv,
            iterations := some 310000 } }
      { urlHash := [], password := [100, 101], turnstilePresent := true,
        turnstileVerified := true, tokenResp := .granted 2, fetchOk := true,
        blob := gcmEncrypt (List.range 32) (List.range 12) [5, 6, 7],
        confirmOk := false }).status = .done ∧
    (executeDownload
      { encryptedMetadata := btoa (List.range 12 ++ List.replicate 24 1),
        iv := btoa (List.range 12), publicName := [113],
        passwordProtection := some
          { encryptedKey := (wrapKeyWithPassword (List.range 32)
              [100, 101] (List.range 16) (List.range 12)).encryptedKey,
            salt := (wrapKeyWithPassword (List.range 32) [100, 101]
              (List.range 16) (List.range 12)).salt,
            iv := (wrapKeyWithPassword (List.range 32) [100, 101]
              (List.range 16) (List.range 12)).iv,
            iterations := some 310000 } }
      { urlHash := [], password := [100, 101], turnstilePresent := true,
        turnstileVerified := true, tokenResp := .granted 2, fetchOk := true,
        blob := gcmEncrypt (List.range 32) (List.range 12) [5, 6, 7],
        confirmOk := false }).savedFile = some [5, 6, 7] := by
  have h := (c9_error_propagation
    { encryptedMetadata := btoa (List.range 12 ++ List.replicate 24 1),
      iv := btoa (List.range 12), publicName := [113],
      passwordProtection := some
        { encryptedKey := (wrapKeyWithPassword (List.range 32)
            [100, 101] (List.range 16) (List.range 12)).encryptedKey,
          salt := (wrapKeyWithPassword (List.range 32) [100, 101]
            (List.range 16) (List.range 12)).salt,
          iv := (wrapKeyWithPassword (List.range 32) [100, 101]
            (List.range 16) (List.range 12)).iv,
          iterations := some 310000 } }
    { urlHash := [], password := [100, 101], turnstilePresent := true,
      turnstileVerified := true, tokenResp := .granted 2, fetchOk := true,
      blob := gcmEncrypt (List.range 32) (List.range 12) [5, 6, 7],
      confirmOk := false }
    { encryptedKey := (wrapKeyWithPassword (List.range 32)
        [100, 101] (List.range 16) (List.range 12)).encryptedKey,
      salt := (wrapKeyWithPassword (List.range 32) [100, 101]
        (List.range 16) (List.range 12)).salt,
      iv := (wrapKeyWithPassword (List.range 32) [100, 101]
        (List.range 16) (List.range 12)).iv,
      iterations := some 310000 }
    rfl (by decide) rfl rfl).2.2 (List.range 32) [5, 6, 7] 2
    (by decide) (by decide) rfl rfl (by decide)
  exact ⟨h.1, h.2.1⟩

